import Mathlib

/-!
Shallow embedding of `Battery_simulation_project.py` (Battery discharge
simulation) over exact rational arithmetic.

Modelling conventions:
* `float` values become `ℚ`.
* The transcendental power `x ** y` used by Peukert's law is abstracted as a
  function parameter `rpow : ℚ → ℚ → ℚ`; every theorem below holds for an
  arbitrary such function (the code immediately clamps its value).
* The two independent uses of `np.random.randn` (the `random` profile draw
  and the measurement noise) are abstracted as streams `randP randN : ℕ → ℚ`.
* `np.sign (np.sin (2 * π * u))` is a function of the fractional part of `u`
  and is computed exactly by `signSin2pi`.
* `np.linspace 0 T 1000` is the grid `i * T / 999`, `i = 0, …, 999`.
* `raise ValueError` becomes `Except.error`.
-/

set_option maxRecDepth 100000

/-- Number of samples of the simulation time grid (`np.linspace(0, T, 1000)`). -/
def numSamples : ℕ := 1000

/-- The `i`-th point of `np.linspace 0 T numSamples`: `i * T / 999`. -/
def tGrid (T : ℚ) (i : ℕ) : ℚ := T * i / 999

/-- `np.clip x lo hi = np.minimum hi (np.maximum x lo)`. -/
def np_clip (x lo hi : ℚ) : ℚ := min hi (max x lo)

/-- Exact value of `np.sign (np.sin (2 * π * u))` for rational `u`:
`sin (2πu)` vanishes iff the fractional part of `u` is `0` or `1/2`, is
positive on `(0, 1/2)` and negative on `(1/2, 1)`. -/
def signSin2pi (u : ℚ) : ℚ :=
  let f := u - (⌊u⌋ : ℚ)
  if f = 0 ∨ f = 1/2 then 0 else if f < 1/2 then 1 else -1

/-- The battery model: the fields set by `Batterysimulator.__init__`. -/
structure Batterysimulator where
  capacity_Ah : ℚ
  initial_SOC : ℚ
  nominal_voltage : ℚ
  internal_resistance : ℚ
  peukert_exponent : ℚ
  capacity_As : ℚ

/-- `Batterysimulator.__init__`: `internal_resistance = 0.05`,
`peukert_exponent = 1.1`, `capacity_As = capacity_Ah * 3600`. -/
def Batterysimulator.init (capacity_Ah initial_soc nominal_voltage : ℚ) :
    Batterysimulator :=
  { capacity_Ah := capacity_Ah
    initial_SOC := initial_soc
    nominal_voltage := nominal_voltage
    internal_resistance := 1/20
    peukert_exponent := 11/10
    capacity_As := capacity_Ah * 3600 }

/-- `Batterysimulator.peukert_capacity`: reference current `I_ref =
capacity_Ah / 20`; for `current ≤ 0` return `capacity_As` unmodified,
otherwise `capacity_As * max 0.3 (min 2.0 ((I_ref / current) ** (k - 1)))`. -/
def peukert_capacity (rpow : ℚ → ℚ → ℚ) (b : Batterysimulator)
    (current : ℚ) : ℚ :=
  let I_ref := b.capacity_Ah / 20
  if current ≤ 0 then b.capacity_As
  else
    let peukert_factor := rpow (I_ref / current) (b.peukert_exponent - 1)
    b.capacity_As * max (3/10) (min 2 peukert_factor)

/-- The current series of `discharge_simulation` before the optional noise:
the four-way dispatch on `current_profile` (the `else` branch is reached only
for `"random"`, since invalid profiles raise before any current is built). -/
def profileCurrent (randP : ℕ → ℚ) (profile : String) (cv T : ℚ)
    (i : ℕ) : ℚ :=
  if profile = "constant" then cv
  else if profile = "pulsed" then
    cv * (1/2 + 1/2 * signSin2pi (tGrid T i / 3600))
  else if profile = "ramp" then cv * (1/2 + 1/2 * tGrid T i / T)
  else np_clip (cv * (7/10 + 6/10 * randP i)) (1/10 * cv) (2 * cv)

/-- The current series after the optional Gaussian noise
`I += 0.05 * current_value * randn(len t)`. -/
def currentA (randP randN : ℕ → ℚ) (profile : String) (cv T : ℚ)
    (noise : Bool) (i : ℕ) : ℚ :=
  profileCurrent randP profile cv T i +
    (if noise then 1/20 * cv * randN i else 0)

/-- Cumulative trapezoidal integral of the sample function `y` over the grid
`t` (`scipy.integrate.cumulative_trapezoid(y, t, initial=0)`, viewed
pointwise): `Q 0 = 0`, `Q (i+1) = Q i + (t (i+1) - t i) * (y i + y (i+1)) / 2`. -/
def cumQ (t y : ℕ → ℚ) : ℕ → ℚ
  | 0 => 0
  | i + 1 => cumQ t y i + (t (i + 1) - t i) * (y i + y (i + 1)) / 2

/-- `avg_effective_capacity = np.mean [peukert_capacity i for i in I]` over
the 1000 samples. -/
def avgEffCap (rpow : ℚ → ℚ → ℚ) (b : Batterysimulator) (I : ℕ → ℚ) : ℚ :=
  (∑ i ∈ Finset.range numSamples, peukert_capacity rpow b (I i)) /
    (numSamples : ℚ)

/-- The `i`-th sample of the SOC series:
`np.clip (initial_SOC - Q i / avg_effective_capacity * 100) 0 100`. -/
def socFun (rpow : ℚ → ℚ → ℚ) (randP randN : ℕ → ℚ) (b : Batterysimulator)
    (T : ℚ) (profile : String) (cv : ℚ) (noise : Bool) (i : ℕ) : ℚ :=
  let I := currentA randP randN profile cv T noise
  np_clip (b.initial_SOC - cumQ (tGrid T) I i / avgEffCap rpow b I * 100) 0 100

/-- The record returned by a successful `discharge_simulation` call. -/
structure SimulationResult where
  time_hours : List ℚ
  time_seconds : List ℚ
  current_A : List ℚ
  SOC_percent : List ℚ
  voltage_V : List ℚ
  power_W : List ℚ
  remaining_capacity_Ah : List ℚ
  effective_capacity_As : ℚ

/-- The result record built by `discharge_simulation` once the profile name
has been accepted: every series is the image of its sample function over the
1000-point grid. -/
def mkResult (rpow : ℚ → ℚ → ℚ) (randP randN : ℕ → ℚ) (b : Batterysimulator)
    (time_hours : ℚ) (profile : String) (cv : ℚ) (noise : Bool) :
    SimulationResult :=
  let T := time_hours * 3600
  let I := currentA randP randN profile cv T noise
  let SOC := socFun rpow randP randN b T profile cv noise
  let OCV := fun i => b.nominal_voltage * (8/10 + 2/10 * SOC i / 100)
  let V := fun i => OCV i - I i * b.internal_resistance
  { time_hours := (List.range numSamples).map (fun i => tGrid T i / 3600)
    time_seconds := (List.range numSamples).map (tGrid T)
    current_A := (List.range numSamples).map I
    SOC_percent := (List.range numSamples).map SOC
    voltage_V := (List.range numSamples).map V
    power_W := (List.range numSamples).map (fun i => V i * I i)
    remaining_capacity_Ah :=
      (List.range numSamples).map (fun i => b.capacity_Ah * SOC i / 100)
    effective_capacity_As := avgEffCap rpow b I }

/-- The profile names accepted by the four-way dispatch. -/
def validProfile (s : String) : Bool :=
  s == "constant" || s == "pulsed" || s == "ramp" || s == "random"

/-- `Batterysimulator.discharge_simulation`: an unrecognized profile raises
`ValueError("Invalid current profile.")` before any series is built;
otherwise the full result record is returned. -/
def discharge_simulation (rpow : ℚ → ℚ → ℚ) (randP randN : ℕ → ℚ)
    (b : Batterysimulator) (time_hours : ℚ) (current_profile : String)
    (cv : ℚ) (noise : Bool) : Except String SimulationResult :=
  if validProfile current_profile then
    Except.ok (mkResult rpow randP randN b time_hours current_profile cv noise)
  else
    Except.error "Invalid current profile."

/-- The method leaves `self` untouched: `discharge_simulation` contains no
assignment to any attribute, so the stateful view of the call returns the
receiver unchanged alongside the result. -/
def discharge_simulation_st (rpow : ℚ → ℚ → ℚ) (randP randN : ℕ → ℚ)
    (b : Batterysimulator) (time_hours : ℚ) (current_profile : String)
    (cv : ℚ) (noise : Bool) :
    Batterysimulator × Except String SimulationResult :=
  (b, discharge_simulation rpow randP randN b time_hours current_profile cv noise)

/-! ### Shared helper lemmas -/

lemma validProfile_iff (s : String) :
    validProfile s = true ↔
      s = "constant" ∨ s = "pulsed" ∨ s = "ramp" ∨ s = "random" := by
  simp [validProfile, Bool.or_eq_true, beq_iff_eq, or_assoc]

lemma discharge_simulation_ok_iff (rpow : ℚ → ℚ → ℚ) (randP randN : ℕ → ℚ)
    (b : Batterysimulator) (th : ℚ) (p : String) (cv : ℚ) (noise : Bool)
    (r : SimulationResult) :
    discharge_simulation rpow randP randN b th p cv noise = Except.ok r ↔
      validProfile p = true ∧ r = mkResult rpow randP randN b th p cv noise := by
  unfold discharge_simulation
  split
  · rename_i h
    simp [h, eq_comm]
  · rename_i h
    simp [h]

lemma mkResult_SOC_percent (rpow : ℚ → ℚ → ℚ) (randP randN : ℕ → ℚ)
    (b : Batterysimulator) (th : ℚ) (p : String) (cv : ℚ) (noise : Bool) :
    (mkResult rpow randP randN b th p cv noise).SOC_percent =
      (List.range numSamples).map
        (socFun rpow randP randN b (th * 3600) p cv noise) := rfl

lemma mkResult_current_A (rpow : ℚ → ℚ → ℚ) (randP randN : ℕ → ℚ)
    (b : Batterysimulator) (th : ℚ) (p : String) (cv : ℚ) (noise : Bool) :
    (mkResult rpow randP randN b th p cv noise).current_A =
      (List.range numSamples).map
        (currentA randP randN p cv (th * 3600) noise) := rfl

lemma mkResult_time_seconds (rpow : ℚ → ℚ → ℚ) (randP randN : ℕ → ℚ)
    (b : Batterysimulator) (th : ℚ) (p : String) (cv : ℚ) (noise : Bool) :
    (mkResult rpow randP randN b th p cv noise).time_seconds =
      (List.range numSamples).map (tGrid (th * 3600)) := rfl

lemma mkResult_effective_capacity (rpow : ℚ → ℚ → ℚ) (randP randN : ℕ → ℚ)
    (b : Batterysimulator) (th : ℚ) (p : String) (cv : ℚ) (noise : Bool) :
    (mkResult rpow randP randN b th p cv noise).effective_capacity_As =
      avgEffCap rpow b (currentA randP randN p cv (th * 3600) noise) := rfl

/-- A trivial instantiation of the abstract power function, used to
instantiate theorems at concrete inputs. -/
def rpow1 : ℚ → ℚ → ℚ := fun _ _ => 1

/-- The all-zero random stream, used to instantiate theorems at concrete
inputs. -/
def rand0 : ℕ → ℚ := fun _ => 0

/-! ### C1: SOC is always within [0, 100] -/

/-- C1: for every simulation call (any profile kind, any current value,
with or without noise), every sample of the returned `SOC_percent` series
lies within `[0, 100]` inclusive. -/
theorem C1_soc_in_range (rpow : ℚ → ℚ → ℚ) (randP randN : ℕ → ℚ)
    (b : Batterysimulator) (th : ℚ) (p : String) (cv : ℚ) (noise : Bool)
    (r : SimulationResult)
    (hok : discharge_simulation rpow randP randN b th p cv noise = Except.ok r)
    (x : ℚ) (hx : x ∈ r.SOC_percent) : 0 ≤ x ∧ x ≤ 100 := by
  obtain ⟨-, rfl⟩ := (discharge_simulation_ok_iff _ _ _ _ _ _ _ _ _).mp hok
  rw [mkResult_SOC_percent] at hx
  obtain ⟨i, -, rfl⟩ := List.mem_map.mp hx
  unfold socFun np_clip
  constructor
  · exact le_min (by norm_num) (le_max_right _ _)
  · exact min_le_left _ _

/-- Witness for C1 at a concrete call. -/
theorem C1_soc_in_range_witness :
    discharge_simulation rpow1 rand0 rand0 (Batterysimulator.init 10 100 12)
        3 "constant" 5 false =
      Except.ok (mkResult rpow1 rand0 rand0 (Batterysimulator.init 10 100 12)
        3 "constant" 5 false) ∧
    0 ≤ socFun rpow1 rand0 rand0 (Batterysimulator.init 10 100 12)
        (3 * 3600) "constant" 5 false 0 ∧
    socFun rpow1 rand0 rand0 (Batterysimulator.init 10 100 12)
        (3 * 3600) "constant" 5 false 0 ≤ 100 := by
  have hok : discharge_simulation rpow1 rand0 rand0
      (Batterysimulator.init 10 100 12) 3 "constant" 5 false =
      Except.ok (mkResult rpow1 rand0 rand0 (Batterysimulator.init 10 100 12)
        3 "constant" 5 false) := by
    simp [discharge_simulation, validProfile]
  refine ⟨hok, ?_⟩
  exact C1_soc_in_range rpow1 rand0 rand0 (Batterysimulator.init 10 100 12)
    3 "constant" 5 false _ hok _
    (by
      rw [mkResult_SOC_percent]
      exact List.mem_map_of_mem _ (List.mem_range.mpr (by norm_num [numSamples])))

/-! ### C2: the Peukert correction matches its reference definition -/

/-- The reference definition of the effective capacity, written from the
spec's words: for `I ≤ 0` the nominal `capacity_As`; otherwise
`capacity_As * clamp ((I_ref / I) ^ (k - 1)) 0.3 2.0` with
`I_ref = capacity_Ah / 20`. -/
def peukert_capacity_spec (rpow : ℚ → ℚ → ℚ) (b : Batterysimulator)
    (current : ℚ) : ℚ :=
  if current ≤ 0 then b.capacity_As
  else b.capacity_As *
    max (3/10) (min 2 (rpow (b.capacity_Ah / 20 / current) (b.peukert_exponent - 1)))

/-- C2: `peukert_capacity` coincides with the spec's reference definition,
and (for a nonnegative nominal capacity) its value always lies in
`[0.3 * capacity_As, 2.0 * capacity_As]`. -/
theorem C2_peukert_matches_spec (rpow : ℚ → ℚ → ℚ) (b : Batterysimulator)
    (current : ℚ) :
    peukert_capacity rpow b current = peukert_capacity_spec rpow b current ∧
    (0 ≤ b.capacity_As →
      3/10 * b.capacity_As ≤ peukert_capacity rpow b current ∧
      peukert_capacity rpow b current ≤ 2 * b.capacity_As) := by
  refine ⟨rfl, fun hc => ?_⟩
  unfold peukert_capacity
  split
  · constructor <;> linarith
  · set f := rpow (b.capacity_Ah / 20 / current) (b.peukert_exponent - 1) with hf
    have h1 : (3/10 : ℚ) ≤ max (3/10) (min 2 f) := le_max_left _ _
    have h2 : max (3/10 : ℚ) (min 2 f) ≤ 2 :=
      max_le (by norm_num) (min_le_left _ _)
    constructor
    · calc (3/10 : ℚ) * b.capacity_As = b.capacity_As * (3/10) := by ring
        _ ≤ b.capacity_As * max (3/10) (min 2 f) :=
          mul_le_mul_of_nonneg_left h1 hc
    · calc b.capacity_As * max (3/10) (min 2 f) ≤ b.capacity_As * 2 :=
          mul_le_mul_of_nonneg_left h2 hc
        _ = 2 * b.capacity_As := by ring

/-- Witness for C2 at a concrete battery and current. -/
theorem C2_peukert_matches_spec_witness :
    peukert_capacity rpow1 (Batterysimulator.init 10 100 12) 5 =
      peukert_capacity_spec rpow1 (Batterysimulator.init 10 100 12) 5 ∧
    (0 ≤ (Batterysimulator.init 10 100 12).capacity_As ∧
      3/10 * (Batterysimulator.init 10 100 12).capacity_As ≤
        peukert_capacity rpow1 (Batterysimulator.init 10 100 12) 5 ∧
      peukert_capacity rpow1 (Batterysimulator.init 10 100 12) 5 ≤
        2 * (Batterysimulator.init 10 100 12).capacity_As) := by
  have hc : (0:ℚ) ≤ (Batterysimulator.init 10 100 12).capacity_As := by
    norm_num [Batterysimulator.init]
  exact ⟨(C2_peukert_matches_spec rpow1 (Batterysimulator.init 10 100 12) 5).1,
    hc, (C2_peukert_matches_spec rpow1 (Batterysimulator.init 10 100 12) 5).2 hc⟩

/-! ### C4: all returned series have length 1000 -/

/-- C4: every sequence of a successfully returned `SimulationResult` has
length equal to the time-grid sample count, 1000. -/
theorem C4_series_lengths (rpow : ℚ → ℚ → ℚ) (randP randN : ℕ → ℚ)
    (b : Batterysimulator) (th : ℚ) (p : String) (cv : ℚ) (noise : Bool)
    (r : SimulationResult)
    (hok : discharge_simulation rpow randP randN b th p cv noise = Except.ok r) :
    r.time_hours.length = 1000 ∧ r.time_seconds.length = 1000 ∧
    r.current_A.length = 1000 ∧ r.SOC_percent.length = 1000 ∧
    r.voltage_V.length = 1000 ∧ r.power_W.length = 1000 ∧
    r.remaining_capacity_Ah.length = 1000 ∧ numSamples = 1000 := by
  obtain ⟨-, rfl⟩ := (discharge_simulation_ok_iff _ _ _ _ _ _ _ _ _).mp hok
  unfold mkResult
  simp [numSamples]

/-- Witness for C4 at a concrete call. -/
theorem C4_series_lengths_witness :
    (mkResult rpow1 rand0 rand0 (Batterysimulator.init 10 100 12)
        3 "ramp" 5 true).SOC_percent.length = 1000 := by
  exact (C4_series_lengths rpow1 rand0 rand0 (Batterysimulator.init 10 100 12)
    3 "ramp" 5 true _ (by simp [discharge_simulation, validProfile])).2.2.2.1

/-! ### C5: profile-name validation -/

/-- C5: an unrecognized `current_profile` string makes the call fail with the
invalid-profile error and no result; each of the four supported names makes
the call return a full result. -/
theorem C5_profile_validation (rpow : ℚ → ℚ → ℚ) (randP randN : ℕ → ℚ)
    (b : Batterysimulator) (th : ℚ) (s : String) (cv : ℚ) (noise : Bool) :
    (s ∉ (["constant", "pulsed", "ramp", "random"] : List String) →
      discharge_simulation rpow randP randN b th s cv noise =
        Except.error "Invalid current profile.") ∧
    (s ∈ (["constant", "pulsed", "ramp", "random"] : List String) →
      discharge_simulation rpow randP randN b th s cv noise =
        Except.ok (mkResult rpow randP randN b th s cv noise)) := by
  have hmem : s ∈ (["constant", "pulsed", "ramp", "random"] : List String) ↔
      validProfile s = true := by
    rw [validProfile_iff]
    simp
  constructor
  · intro h
    have hv : ¬ validProfile s = true := fun hc => h (hmem.mpr hc)
    unfold discharge_simulation
    rw [if_neg hv]
  · intro h
    unfold discharge_simulation
    rw [if_pos (hmem.mp h)]

/-- Witness for C5: the unsupported name `"triangle"` is rejected and the
supported name `"pulsed"` is accepted, at a concrete call. -/
theorem C5_profile_validation_witness :
    ("triangle" ∉ (["constant", "pulsed", "ramp", "random"] : List String) ∧
      discharge_simulation rpow1 rand0 rand0 (Batterysimulator.init 10 100 12)
        3 "triangle" 5 true = Except.error "Invalid current profile.") ∧
    ("pulsed" ∈ (["constant", "pulsed", "ramp", "random"] : List String) ∧
      discharge_simulation rpow1 rand0 rand0 (Batterysimulator.init 10 100 12)
        3 "pulsed" 5 true =
        Except.ok (mkResult rpow1 rand0 rand0 (Batterysimulator.init 10 100 12)
          3 "pulsed" 5 true)) := by
  have h1 : "triangle" ∉ (["constant", "pulsed", "ramp", "random"] : List String) := by
    simp
  have h2 : "pulsed" ∈ (["constant", "pulsed", "ramp", "random"] : List String) := by
    simp
  exact ⟨⟨h1, (C5_profile_validation rpow1 rand0 rand0
      (Batterysimulator.init 10 100 12) 3 "triangle" 5 true).1 h1⟩,
    ⟨h2, (C5_profile_validation rpow1 rand0 rand0
      (Batterysimulator.init 10 100 12) 3 "pulsed" 5 true).2 h2⟩⟩

/-! ### C9: the simulator object is never mutated -/

/-- C9: a `discharge_simulation` call leaves the receiver unchanged — every
field of the `Batterysimulator` has the same value after the call as before,
for every input, including calls that fail with an invalid profile. -/
theorem C9_no_mutation (rpow : ℚ → ℚ → ℚ) (randP randN : ℕ → ℚ)
    (b : Batterysimulator) (th : ℚ) (p : String) (cv : ℚ) (noise : Bool) :
    (discharge_simulation_st rpow randP randN b th p cv noise).1 = b ∧
    (discharge_simulation_st rpow randP randN b th p cv noise).1.capacity_Ah =
      b.capacity_Ah ∧
    (discharge_simulation_st rpow randP randN b th p cv noise).1.initial_SOC =
      b.initial_SOC ∧
    (discharge_simulation_st rpow randP randN b th p cv noise).1.nominal_voltage =
      b.nominal_voltage ∧
    (discharge_simulation_st rpow randP randN b th p cv noise).1.internal_resistance =
      b.internal_resistance ∧
    (discharge_simulation_st rpow randP randN b th p cv noise).1.peukert_exponent =
      b.peukert_exponent ∧
    (discharge_simulation_st rpow randP randN b th p cv noise).1.capacity_As =
      b.capacity_As :=
  ⟨rfl, rfl, rfl, rfl, rfl, rfl, rfl⟩

/-! ### C10: the Peukert capacity and its mean are strictly positive -/

/-- C10: for a battery built with `capacity_Ah > 0`, `peukert_capacity` is
strictly positive at every current, hence the mean effective capacity over
any current series is strictly positive and the SOC division is never a
division by zero. -/
theorem C10_peukert_pos (rpow : ℚ → ℚ → ℚ) (c s v : ℚ) (hc : 0 < c) :
    (∀ current, 0 < peukert_capacity rpow (Batterysimulator.init c s v) current) ∧
    (∀ I : ℕ → ℚ, 0 < avgEffCap rpow (Batterysimulator.init c s v) I ∧
      avgEffCap rpow (Batterysimulator.init c s v) I ≠ 0) := by
  have hcAs : (0:ℚ) < (Batterysimulator.init c s v).capacity_As := by
    have : (0:ℚ) < c * 3600 := by positivity
    simpa [Batterysimulator.init] using this
  have hpk : ∀ current,
      0 < peukert_capacity rpow (Batterysimulator.init c s v) current := by
    intro cur
    unfold peukert_capacity
    split
    · exact hcAs
    · refine mul_pos hcAs (lt_of_lt_of_le ?_ (le_max_left _ _))
      norm_num
  refine ⟨hpk, fun I => ?_⟩
  have hsum : 0 < ∑ i ∈ Finset.range numSamples,
      peukert_capacity rpow (Batterysimulator.init c s v) (I i) :=
    Finset.sum_pos (fun i _ => hpk _) (by simp [numSamples])
  have havg : 0 < avgEffCap rpow (Batterysimulator.init c s v) I := by
    unfold avgEffCap
    exact div_pos hsum (by norm_num [numSamples])
  exact ⟨havg, ne_of_gt havg⟩

/-- Witness for C10 at a concrete battery, current and current series. -/
theorem C10_peukert_pos_witness :
    (0:ℚ) < 10 ∧
    0 < peukert_capacity rpow1 (Batterysimulator.init 10 100 12) 5 ∧
    0 < avgEffCap rpow1 (Batterysimulator.init 10 100 12) rand0 ∧
    avgEffCap rpow1 (Batterysimulator.init 10 100 12) rand0 ≠ 0 := by
  have h10 : (0:ℚ) < 10 := by norm_num
  exact ⟨h10, (C10_peukert_pos rpow1 10 100 12 h10).1 5,
    ((C10_peukert_pos rpow1 10 100 12 h10).2 rand0).1,
    ((C10_peukert_pos rpow1 10 100 12 h10).2 rand0).2⟩

/-! ### C3: SOC round-trip from the returned current series -/

/-- List form of the running trapezoid sum: given the previous grid point,
previous sample and accumulated integral, consume the remaining samples `ys`
and grid points `ts` in lockstep. -/
def trapzScan (tPrev yPrev acc : ℚ) : List ℚ → List ℚ → List ℚ
  | y :: ys, t :: ts =>
      (acc + (t - tPrev) * (yPrev + y) / 2) ::
        trapzScan t y (acc + (t - tPrev) * (yPrev + y) / 2) ys ts
  | _, _ => []

/-- `scipy.integrate.cumulative_trapezoid(ys, ts, initial=0)` on lists:
starts at `0` and accumulates trapezoid areas between consecutive samples. -/
def cumulative_trapezoid (ys ts : List ℚ) : List ℚ :=
  match ys, ts with
  | y0 :: ys1, t0 :: ts1 => 0 :: trapzScan t0 y0 0 ys1 ts1
  | _, _ => []

/-- The spec's manual SOC recomputation: integrate the current series over
the time grid by cumulative trapezoids starting at zero, apply
`initial_soc - (Q / avg) * 100`, clamp each sample to `[0, 100]`. -/
def recomputeSOC (initial_soc avg : ℚ) (current times : List ℚ) : List ℚ :=
  (cumulative_trapezoid current times).map
    (fun q => np_clip (initial_soc - q / avg * 100) 0 100)

lemma trapzScan_range (t y : ℕ → ℚ) :
    ∀ (m k : ℕ),
      trapzScan (t k) (y k) (cumQ t y k)
        ((List.range' (k + 1) m).map y) ((List.range' (k + 1) m).map t) =
      (List.range' (k + 1) m).map (cumQ t y) := by
  intro m
  induction m with
  | zero => intro k; simp [trapzScan]
  | succ n ih =>
    intro k
    rw [List.range'_succ, List.map_cons, List.map_cons, List.map_cons]
    show (cumQ t y k + (t (k + 1) - t k) * (y k + y (k + 1)) / 2) ::
        trapzScan (t (k + 1)) (y (k + 1))
          (cumQ t y k + (t (k + 1) - t k) * (y k + y (k + 1)) / 2)
          ((List.range' (k + 1 + 1) n).map y) ((List.range' (k + 1 + 1) n).map t) =
      cumQ t y (k + 1) :: (List.range' (k + 1 + 1) n).map (cumQ t y)
    have hstep : cumQ t y k + (t (k + 1) - t k) * (y k + y (k + 1)) / 2 =
        cumQ t y (k + 1) := rfl
    rw [hstep, ih (k + 1)]

/-- For series given as images of sample functions over the grid, the list
trapezoid equals the pointwise recursion `cumQ`. -/
lemma cumulative_trapezoid_map (t y : ℕ → ℚ) (n : ℕ) :
    cumulative_trapezoid ((List.range n).map y) ((List.range n).map t) =
      (List.range n).map (cumQ t y) := by
  cases n with
  | zero => simp [cumulative_trapezoid]
  | succ m =>
    rw [List.range_eq_range', List.range'_succ, List.map_cons, List.map_cons,
      List.map_cons]
    show cumulative_trapezoid (y 0 :: (List.range' 1 m).map y)
        (t 0 :: (List.range' 1 m).map t) =
      cumQ t y 0 :: (List.range' 1 m).map (cumQ t y)
    show 0 :: trapzScan (t 0) (y 0) 0 ((List.range' 1 m).map y)
        ((List.range' 1 m).map t) =
      cumQ t y 0 :: (List.range' 1 m).map (cumQ t y)
    have h0 : cumQ t y 0 = 0 := rfl
    rw [h0]
    have h1 := trapzScan_range t y m 0
    rw [h0] at h1
    simpa using h1

/-- C3: recomputing SOC from the returned current series, time grid and
`effective_capacity_As` scalar — cumulative trapezoidal integration starting
at zero, then `initial_soc - (Q / avg) * 100`, then clamping to `[0, 100]` —
reproduces the returned `SOC_percent` series exactly. -/
theorem C3_soc_roundtrip (rpow : ℚ → ℚ → ℚ) (randP randN : ℕ → ℚ)
    (b : Batterysimulator) (th : ℚ) (p : String) (cv : ℚ) (noise : Bool)
    (r : SimulationResult)
    (hok : discharge_simulation rpow randP randN b th p cv noise = Except.ok r) :
    recomputeSOC b.initial_SOC r.effective_capacity_As r.current_A
      r.time_seconds = r.SOC_percent := by
  obtain ⟨-, rfl⟩ := (discharge_simulation_ok_iff _ _ _ _ _ _ _ _ _).mp hok
  rw [mkResult_current_A, mkResult_time_seconds, mkResult_effective_capacity,
    mkResult_SOC_percent]
  unfold recomputeSOC
  rw [cumulative_trapezoid_map, List.map_map]
  rfl

/-- Witness for C3 at a concrete call. -/
theorem C3_soc_roundtrip_witness :
    recomputeSOC (Batterysimulator.init 10 100 12).initial_SOC
      (mkResult rpow1 rand0 rand0 (Batterysimulator.init 10 100 12)
        3 "constant" 5 false).effective_capacity_As
      (mkResult rpow1 rand0 rand0 (Batterysimulator.init 10 100 12)
        3 "constant" 5 false).current_A
      (mkResult rpow1 rand0 rand0 (Batterysimulator.init 10 100 12)
        3 "constant" 5 false).time_seconds =
    (mkResult rpow1 rand0 rand0 (Batterysimulator.init 10 100 12)
      3 "constant" 5 false).SOC_percent :=
  C3_soc_roundtrip rpow1 rand0 rand0 (Batterysimulator.init 10 100 12)
    3 "constant" 5 false _ (by simp [discharge_simulation, validProfile])

/-! ### More shared helper lemmas -/

lemma mkResult_SOC_length (rpow : ℚ → ℚ → ℚ) (randP randN : ℕ → ℚ)
    (b : Batterysimulator) (th : ℚ) (p : String) (cv : ℚ) (noise : Bool) :
    (mkResult rpow randP randN b th p cv noise).SOC_percent.length =
      numSamples := by
  rw [mkResult_SOC_percent]
  simp

lemma mkResult_current_length (rpow : ℚ → ℚ → ℚ) (randP randN : ℕ → ℚ)
    (b : Batterysimulator) (th : ℚ) (p : String) (cv : ℚ) (noise : Bool) :
    (mkResult rpow randP randN b th p cv noise).current_A.length =
      numSamples := by
  rw [mkResult_current_A]
  simp

lemma mkResult_SOC_getElem (rpow : ℚ → ℚ → ℚ) (randP randN : ℕ → ℚ)
    (b : Batterysimulator) (th : ℚ) (p : String) (cv : ℚ) (noise : Bool)
    (k : ℕ) (hk : k < (mkResult rpow randP randN b th p cv noise).SOC_percent.length) :
    (mkResult rpow randP randN b th p cv noise).SOC_percent[k] =
      socFun rpow randP randN b (th * 3600) p cv noise k := by
  simp only [mkResult_SOC_percent, List.getElem_map, List.getElem_range]

lemma mkResult_current_getElem (rpow : ℚ → ℚ → ℚ) (randP randN : ℕ → ℚ)
    (b : Batterysimulator) (th : ℚ) (p : String) (cv : ℚ) (noise : Bool)
    (k : ℕ) (hk : k < (mkResult rpow randP randN b th p cv noise).current_A.length) :
    (mkResult rpow randP randN b th p cv noise).current_A[k] =
      currentA randP randN p cv (th * 3600) noise k := by
  simp only [mkResult_current_A, List.getElem_map, List.getElem_range]

/-- With `current_value = 0` and no noise, every profile branch yields the
zero current at every sample. -/
lemma currentA_cv_zero (randP randN : ℕ → ℚ) (p : String) (T : ℚ) (j : ℕ) :
    currentA randP randN p 0 T false j = 0 := by
  unfold currentA profileCurrent np_clip
  split_ifs <;> simp

/-- The cumulative trapezoid of an identically zero series is zero. -/
lemma cumQ_of_zero (t I : ℕ → ℚ) (hI : ∀ j, I j = 0) : ∀ i, cumQ t I i = 0 := by
  intro i
  induction i with
  | zero => rfl
  | succ n ih =>
    unfold cumQ
    rw [ih, hI n, hI (n + 1)]
    ring

/-! ### C6: zero current and no noise keep SOC at the initial value -/

/-- C6: for every simulation call with `current_value = 0` and
`add_noise = false` (any supported profile), if `initial_soc ∈ [0, 100]`
then every sample of the returned `SOC_percent` series equals
`initial_soc`. -/
theorem C6_zero_current_soc_constant (rpow : ℚ → ℚ → ℚ) (randP randN : ℕ → ℚ)
    (b : Batterysimulator) (th : ℚ) (p : String)
    (h0 : 0 ≤ b.initial_SOC) (h100 : b.initial_SOC ≤ 100)
    (r : SimulationResult)
    (hok : discharge_simulation rpow randP randN b th p 0 false = Except.ok r) :
    ∀ x ∈ r.SOC_percent, x = b.initial_SOC := by
  obtain ⟨-, rfl⟩ := (discharge_simulation_ok_iff _ _ _ _ _ _ _ _ _).mp hok
  intro x hx
  rw [mkResult_SOC_percent] at hx
  obtain ⟨i, -, rfl⟩ := List.mem_map.mp hx
  show np_clip (b.initial_SOC -
      cumQ (tGrid (th * 3600)) (currentA randP randN p 0 (th * 3600) false) i /
        avgEffCap rpow b (currentA randP randN p 0 (th * 3600) false) * 100)
      0 100 = b.initial_SOC
  rw [cumQ_of_zero _ _ (currentA_cv_zero randP randN p (th * 3600)) i]
  unfold np_clip
  rw [zero_div, zero_mul, sub_zero, max_eq_left h0, min_eq_right h100]

/-- Witness for C6 at a concrete call with the `random` profile. -/
theorem C6_zero_current_soc_constant_witness :
    0 ≤ (Batterysimulator.init 10 100 12).initial_SOC ∧
    (Batterysimulator.init 10 100 12).initial_SOC ≤ 100 ∧
    discharge_simulation rpow1 rand0 rand0 (Batterysimulator.init 10 100 12)
        3 "random" 0 false =
      Except.ok (mkResult rpow1 rand0 rand0 (Batterysimulator.init 10 100 12)
        3 "random" 0 false) ∧
    socFun rpow1 rand0 rand0 (Batterysimulator.init 10 100 12) (3 * 3600)
        "random" 0 false 0 =
      (Batterysimulator.init 10 100 12).initial_SOC := by
  have h0 : (0:ℚ) ≤ (Batterysimulator.init 10 100 12).initial_SOC := by
    norm_num [Batterysimulator.init]
  have h100 : (Batterysimulator.init 10 100 12).initial_SOC ≤ 100 := by
    norm_num [Batterysimulator.init]
  have hok : discharge_simulation rpow1 rand0 rand0
      (Batterysimulator.init 10 100 12) 3 "random" 0 false =
      Except.ok (mkResult rpow1 rand0 rand0 (Batterysimulator.init 10 100 12)
        3 "random" 0 false) := by
    simp [discharge_simulation, validProfile]
  refine ⟨h0, h100, hok, ?_⟩
  exact C6_zero_current_soc_constant rpow1 rand0 rand0
    (Batterysimulator.init 10 100 12) 3 "random" h0 h100 _ hok _
    (by
      rw [mkResult_SOC_percent]
      exact List.mem_map_of_mem _ (List.mem_range.mpr (by norm_num [numSamples])))

/-! ### C7: SOC monotonicity for the constant profile -/

lemma socFun_eq (rpow : ℚ → ℚ → ℚ) (randP randN : ℕ → ℚ)
    (b : Batterysimulator) (T : ℚ) (p : String) (cv : ℚ) (noise : Bool)
    (i : ℕ) :
    socFun rpow randP randN b T p cv noise i =
      np_clip (b.initial_SOC -
        cumQ (tGrid T) (currentA randP randN p cv T noise) i /
          avgEffCap rpow b (currentA randP randN p cv T noise) * 100) 0 100 := rfl

lemma peukert_capacity_pos (rpow : ℚ → ℚ → ℚ) (b : Batterysimulator)
    (hb : 0 < b.capacity_As) (cur : ℚ) : 0 < peukert_capacity rpow b cur := by
  unfold peukert_capacity
  split
  · exact hb
  · exact mul_pos hb (lt_of_lt_of_le (by norm_num) (le_max_left _ _))

lemma avgEffCap_pos (rpow : ℚ → ℚ → ℚ) (b : Batterysimulator)
    (hb : 0 < b.capacity_As) (I : ℕ → ℚ) : 0 < avgEffCap rpow b I := by
  unfold avgEffCap
  exact div_pos
    (Finset.sum_pos (fun i _ => peukert_capacity_pos rpow b hb _)
      (by simp [numSamples]))
    (by norm_num [numSamples])

lemma currentA_constant (randP randN : ℕ → ℚ) (cv T : ℚ) (j : ℕ) :
    currentA randP randN "constant" cv T false j = cv := by
  simp [currentA, profileCurrent]

/-- For a constant nonnegative current on a forward-running grid, the
cumulative trapezoid is monotone. -/
lemma cumQ_mono_of_const (T cv : ℚ) (hT : 0 ≤ T) (hcv : 0 ≤ cv)
    (I : ℕ → ℚ) (hI : ∀ j, I j = cv) :
    Monotone (cumQ (tGrid T) I) := by
  apply monotone_nat_of_le_succ
  intro k
  have hgrid : tGrid T (k + 1) - tGrid T k = T / 999 := by
    unfold tGrid
    push_cast
    ring
  have hstep : cumQ (tGrid T) I (k + 1) =
      cumQ (tGrid T) I k + (tGrid T (k + 1) - tGrid T k) * (I k + I (k + 1)) / 2 :=
    rfl
  rw [hstep, hgrid, hI k, hI (k + 1)]
  have hpos : 0 ≤ T / 999 * (cv + cv) / 2 := by positivity
  linarith

/-- C7 (amended): for the `constant` profile without noise, with a
nonnegative `current_value`, a nonnegative time horizon and a positive
`capacity_Ah`, the returned `SOC_percent` series is non-increasing: for all
sample indices `i ≤ j`, `SOC[j] ≤ SOC[i]`.  (As frozen — over every
`current_value` — the claim fails: a negative constant current charges the
battery and SOC increases; see the counterexample.) -/
theorem C7_soc_nonincreasing (rpow : ℚ → ℚ → ℚ) (randP randN : ℕ → ℚ)
    (c s v th cv : ℚ) (hc : 0 < c) (hcv : 0 ≤ cv) (hth : 0 ≤ th)
    (r : SimulationResult)
    (hok : discharge_simulation rpow randP randN (Batterysimulator.init c s v)
      th "constant" cv false = Except.ok r)
    (i j : ℕ) (hij : i ≤ j) (hi : i < r.SOC_percent.length)
    (hj : j < r.SOC_percent.length) :
    r.SOC_percent[j] ≤ r.SOC_percent[i] := by
  obtain ⟨-, rfl⟩ := (discharge_simulation_ok_iff _ _ _ _ _ _ _ _ _).mp hok
  rw [mkResult_SOC_getElem rpow randP randN _ th "constant" cv false j hj,
    mkResult_SOC_getElem rpow randP randN _ th "constant" cv false i hi,
    socFun_eq, socFun_eq]
  have hIc : ∀ k, currentA randP randN "constant" cv (th * 3600) false k = cv :=
    currentA_constant randP randN cv (th * 3600)
  have hQ : cumQ (tGrid (th * 3600))
        (currentA randP randN "constant" cv (th * 3600) false) i ≤
      cumQ (tGrid (th * 3600))
        (currentA randP randN "constant" cv (th * 3600) false) j :=
    cumQ_mono_of_const (th * 3600) cv (by positivity) hcv _ hIc hij
  have hbAs : 0 < (Batterysimulator.init c s v).capacity_As := by
    have : (0:ℚ) < c * 3600 := by positivity
    simpa [Batterysimulator.init] using this
  have havg : 0 < avgEffCap rpow (Batterysimulator.init c s v)
      (currentA randP randN "constant" cv (th * 3600) false) :=
    avgEffCap_pos rpow _ hbAs _
  have hdiv : cumQ (tGrid (th * 3600))
        (currentA randP randN "constant" cv (th * 3600) false) i /
        avgEffCap rpow (Batterysimulator.init c s v)
          (currentA randP randN "constant" cv (th * 3600) false) ≤
      cumQ (tGrid (th * 3600))
        (currentA randP randN "constant" cv (th * 3600) false) j /
        avgEffCap rpow (Batterysimulator.init c s v)
          (currentA randP randN "constant" cv (th * 3600) false) :=
    (div_le_div_iff_of_pos_right havg).mpr hQ
  unfold np_clip
  refine min_le_min le_rfl (max_le_max ?_ le_rfl)
  nlinarith

/-- Witness for the amended C7 at a concrete call. -/
theorem C7_soc_nonincreasing_witness :
    (0:ℚ) < 10 ∧ (0:ℚ) ≤ 5 ∧ (0:ℚ) ≤ 3 ∧
    discharge_simulation rpow1 rand0 rand0 (Batterysimulator.init 10 100 12)
        3 "constant" 5 false =
      Except.ok (mkResult rpow1 rand0 rand0 (Batterysimulator.init 10 100 12)
        3 "constant" 5 false) ∧
    (mkResult rpow1 rand0 rand0 (Batterysimulator.init 10 100 12)
        3 "constant" 5 false).SOC_percent.get
      ⟨1, by rw [mkResult_SOC_length]; norm_num [numSamples]⟩ ≤
    (mkResult rpow1 rand0 rand0 (Batterysimulator.init 10 100 12)
        3 "constant" 5 false).SOC_percent.get
      ⟨0, by rw [mkResult_SOC_length]; norm_num [numSamples]⟩ := by
  have hok : discharge_simulation rpow1 rand0 rand0
      (Batterysimulator.init 10 100 12) 3 "constant" 5 false =
      Except.ok (mkResult rpow1 rand0 rand0 (Batterysimulator.init 10 100 12)
        3 "constant" 5 false) := by
    simp [discharge_simulation, validProfile]
  refine ⟨by norm_num, by norm_num, by norm_num, hok, ?_⟩
  exact C7_soc_nonincreasing rpow1 rand0 rand0 10 100 12 3 5 (by norm_num)
    (by norm_num) (by norm_num) _ hok 0 1 (by norm_num)
    (by rw [mkResult_SOC_length]; norm_num [numSamples])
    (by rw [mkResult_SOC_length]; norm_num [numSamples])

/-- C7 counterexample: the claim as frozen quantifies over every
`current_value`; with `current_value = -5` (constant profile, no noise,
`initial_soc = 50`) the returned SOC series strictly increases from sample 0
to sample 1, so it is not non-increasing. -/
theorem C7_counterexample :
    discharge_simulation rpow1 rand0 rand0 (Batterysimulator.init 10 50 12)
        3 "constant" (-5) false =
      Except.ok (mkResult rpow1 rand0 rand0 (Batterysimulator.init 10 50 12)
        3 "constant" (-5) false) ∧
    (mkResult rpow1 rand0 rand0 (Batterysimulator.init 10 50 12)
        3 "constant" (-5) false).SOC_percent.get
      ⟨0, by rw [mkResult_SOC_length]; norm_num [numSamples]⟩ = 50 ∧
    (mkResult rpow1 rand0 rand0 (Batterysimulator.init 10 50 12)
        3 "constant" (-5) false).SOC_percent.get
      ⟨1, by rw [mkResult_SOC_length]; norm_num [numSamples]⟩ = 16700/333 ∧
    (50:ℚ) < 16700/333 := by
  have hok : discharge_simulation rpow1 rand0 rand0
      (Batterysimulator.init 10 50 12) 3 "constant" (-5) false =
      Except.ok (mkResult rpow1 rand0 rand0 (Batterysimulator.init 10 50 12)
        3 "constant" (-5) false) := by
    simp [discharge_simulation, validProfile]
  have hI : ∀ k, currentA rand0 rand0 "constant" (-5) (3 * 3600) false k = -5 :=
    currentA_constant rand0 rand0 (-5) (3 * 3600)
  have havg : avgEffCap rpow1 (Batterysimulator.init 10 50 12)
      (currentA rand0 rand0 "constant" (-5) (3 * 3600) false) = 36000 := by
    unfold avgEffCap
    have hterm : ∀ k ∈ Finset.range numSamples,
        peukert_capacity rpow1 (Batterysimulator.init 10 50 12)
          (currentA rand0 rand0 "constant" (-5) (3 * 3600) false k) = 36000 := by
      intro k _
      rw [hI k]
      unfold peukert_capacity
      rw [if_pos (by norm_num)]
      norm_num [Batterysimulator.init]
    rw [Finset.sum_congr rfl hterm, Finset.sum_const, Finset.card_range]
    norm_num [numSamples]
  have hQ1 : cumQ (tGrid (3 * 3600))
      (currentA rand0 rand0 "constant" (-5) (3 * 3600) false) 1 = -54000/999 := by
    have : cumQ (tGrid (3 * 3600))
        (currentA rand0 rand0 "constant" (-5) (3 * 3600) false) 1 =
      0 + (tGrid (3 * 3600) 1 - tGrid (3 * 3600) 0) *
        (currentA rand0 rand0 "constant" (-5) (3 * 3600) false 0 +
         currentA rand0 rand0 "constant" (-5) (3 * 3600) false 1) / 2 := rfl
    rw [this, hI 0, hI 1]
    norm_num [tGrid]
  have hsoc0 : socFun rpow1 rand0 rand0 (Batterysimulator.init 10 50 12)
      (3 * 3600) "constant" (-5) false 0 = 50 := by
    rw [socFun_eq]
    have h0 : cumQ (tGrid (3 * 3600))
        (currentA rand0 rand0 "constant" (-5) (3 * 3600) false) 0 = 0 := rfl
    rw [h0, havg]
    norm_num [np_clip, Batterysimulator.init]
  have hsoc1 : socFun rpow1 rand0 rand0 (Batterysimulator.init 10 50 12)
      (3 * 3600) "constant" (-5) false 1 = 16700/333 := by
    rw [socFun_eq, hQ1, havg]
    norm_num [np_clip, Batterysimulator.init]
  refine ⟨hok, ?_, ?_, by norm_num⟩
  · rw [List.get_eq_getElem, mkResult_SOC_getElem]
    exact hsoc0
  · rw [List.get_eq_getElem, mkResult_SOC_getElem]
    exact hsoc1

/-! ### C8: the pulsed profile -/

/-- C8 (amended): for the `pulsed` profile without noise, every sample of the
returned current series equals
`current_value * (1/2 + 1/2 * sign (sin (2π t / 3600)))`: `current_value`
while the fractional part of `t / 3600` is in `(0, 1/2)` (first half of each
3600 s period), `0` while it is in `(1/2, 1)` (second half), and
`current_value / 2` at samples where `sin` vanishes exactly — in particular
at `t = 0`, so the series takes the value `current_value * (1/2)` in addition
to `0` and `current_value`.  (As frozen — every sample equals `0` or
`current_value` — the claim fails at sample 0; see the counterexample.) -/
theorem C8_pulsed_square_wave (rpow : ℚ → ℚ → ℚ) (randP randN : ℕ → ℚ)
    (b : Batterysimulator) (th cv : ℚ) (i : ℕ)
    (hi : i < (mkResult rpow randP randN b th "pulsed" cv false).current_A.length) :
    (mkResult rpow randP randN b th "pulsed" cv false).current_A[i] =
      cv * (1/2 + 1/2 * signSin2pi (tGrid (th * 3600) i / 3600)) ∧
    ((mkResult rpow randP randN b th "pulsed" cv false).current_A[i] = 0 ∨
     (mkResult rpow randP randN b th "pulsed" cv false).current_A[i] = cv ∨
     (mkResult rpow randP randN b th "pulsed" cv false).current_A[i] = cv * (1/2)) := by
  rw [mkResult_current_getElem]
  have hbase : currentA randP randN "pulsed" cv (th * 3600) false i =
      cv * (1/2 + 1/2 * signSin2pi (tGrid (th * 3600) i / 3600)) := by
    simp [currentA, profileCurrent]
  refine ⟨hbase, ?_⟩
  rw [hbase]
  simp only [signSin2pi]
  split_ifs
  · right; right; ring
  · right; left; ring
  · left; ring

/-- Witness for the amended C8 at a concrete call and sample. -/
theorem C8_pulsed_square_wave_witness :
    (mkResult rpow1 rand0 rand0 (Batterysimulator.init 10 100 12)
        3 "pulsed" 5 false).current_A.get
      ⟨0, by rw [mkResult_current_length]; norm_num [numSamples]⟩ =
      5 * (1/2 + 1/2 * signSin2pi (tGrid (3 * 3600) 0 / 3600)) :=
  (C8_pulsed_square_wave rpow1 rand0 rand0 (Batterysimulator.init 10 100 12)
    3 5 0 (by rw [mkResult_current_length]; norm_num [numSamples])).1

/-- C8 counterexample: at `t = 0` the factor `sign (sin 0)` is `0`, so the
first sample of the pulsed current series is `current_value / 2`, which is
neither `0` nor `current_value` (here `current_value = 5`). -/
theorem C8_counterexample :
    discharge_simulation rpow1 rand0 rand0 (Batterysimulator.init 10 100 12)
        3 "pulsed" 5 false =
      Except.ok (mkResult rpow1 rand0 rand0 (Batterysimulator.init 10 100 12)
        3 "pulsed" 5 false) ∧
    (mkResult rpow1 rand0 rand0 (Batterysimulator.init 10 100 12)
        3 "pulsed" 5 false).current_A.get
      ⟨0, by rw [mkResult_current_length]; norm_num [numSamples]⟩ = 5/2 ∧
    (5/2 : ℚ) ≠ 0 ∧ (5/2 : ℚ) ≠ 5 := by
  refine ⟨by simp [discharge_simulation, validProfile], ?_, by norm_num, by norm_num⟩
  rw [List.get_eq_getElem, mkResult_current_getElem]
  have ht : tGrid (3 * 3600) 0 / 3600 = 0 := by norm_num [tGrid]
  simp [currentA, profileCurrent, ht, signSin2pi]
  norm_num
